import Mathlib

/-!
Shallow embedding of the firmware's core state machines and verification of the
spec's testable properties.

Covered code (all in Src/):
 * tft.c            — chunked non-blocking render engine (fill / text-line blit)
 * app_helpers.c    — UI line manager (dirty-tracking text cache + round-robin pump)
 * i2c.c            — sensor poll service with bus recovery and retry
 * app_net.c        — telemetry serializer, TCP single-flight send, reconnect gate
 * main.c           — cooperative main loop with terminal idle wait

Machine integers are modelled as `Nat`/`Int` with explicit `% 2^w` where the C
code relies on wrap-around (the 32-bit millisecond clock deltas). C strings are
modelled as `List Char` (contents up to the terminating NUL). Hardware calls
that can fail (`HAL_SPI_Transmit`, `tcp_write`, `tcp_output`, bus reads) are
modelled as boolean / sum-typed inputs supplied by the environment.
-/

set_option maxRecDepth 4096

/- =============================================================================
   tft.c — render engine
   =============================================================================

   #define TFT_W 160U / TFT_H 128U / TFT_PIXELS (TFT_W*TFT_H)
   #define TFT_CHUNK_BYTES 512U
-/

def TFT_W : Nat := 160

def TFT_H : Nat := 128

def TFT_PIXELS : Nat := TFT_W * TFT_H

def TFT_CHUNK_BYTES : Nat := 512

/-- `typedef enum { TFT_OP_NONE = 0, TFT_OP_FILL, TFT_OP_BLIT } tft_op_t;` -/
inductive tft_op_t where
  | NONE
  | FILL
  | BLIT
deriving DecidableEq, Repr

/-- The engine's file-scope state in tft.c: `g_op`, `g_fill_color`,
`g_fill_sent_pixels`, `g_blit_ptr`/`g_blit_len`/`g_blit_sent`. The blit source
(`g_blit_ptr`, which always points at `g_linebuf`) is modelled as the list of
RGB565 words it points to. -/
structure TftState where
  op : tft_op_t
  fill_color : Nat
  fill_sent_pixels : Nat
  blit_src : List Nat
  blit_len : Nat
  blit_sent : Nat
deriving DecidableEq, Repr

/-- Reset state of the engine (all globals zero-initialised). -/
def tftInit : TftState :=
  { op := .NONE, fill_color := 0, fill_sent_pixels := 0
    blit_src := [], blit_len := 0, blit_sent := 0 }

/-- `TFT_FillColor_Async(uint16_t color565)`: stores the color, zeroes the pixel
counter and unconditionally sets `g_op = TFT_OP_FILL` (the function performs no
busy check; its doc comment states an in-flight operation's state is
overwritten). The address-window/CS/DC bus writes are hardware effects with no
engine-state footprint. -/
def TFT_FillColor_Async (color565 : Nat) (s : TftState) : TftState :=
  { s with fill_color := color565, fill_sent_pixels := 0, op := .FILL }

/-- `TFT_DrawTextLine_Async(y, text, fg, bg)`: rejects `y >= TFT_H`, rejects
while `g_op != TFT_OP_NONE`, otherwise renders the text into `g_linebuf` and
starts a blit of `TFT_W * LINE_H * 2 = 2560` bytes. The rendered line buffer
(produced by `linebuf_clear` / `linebuf_draw_char` from the 5x7 font; its pixel
content is irrelevant to the properties here) is passed in as `linebuf`. -/
def TFT_DrawTextLine_Async (y : Nat) (linebuf : List Nat) (s : TftState) : TftState :=
  if y ≥ TFT_H then s
  else if s.op ≠ .NONE then s
  else
    { s with blit_src := linebuf
             blit_len := TFT_W * 8 * 2
             blit_sent := 0
             op := .BLIT }

/-- Big-endian byte stream of a list of RGB565 words, as produced by the blit
branch of `TFT_Task`: `g_txbuf[2i] = (uint8_t)(c >> 8); g_txbuf[2i+1] = (uint8_t)(c & 0xFF)`. -/
def beBytes (ws : List Nat) : List Nat :=
  ws.flatMap (fun c => [c / 256 % 256, c % 256])

/-- `TFT_Task()`: progress the current operation by at most one chunk.
`spi_ok` is the result of the single `HAL_SPI_Transmit` call of this tick; on
failure the counters are untouched ("just try again next call"). Returns the
new state and the bytes pushed over the bus this call. -/
def TFT_Task (s : TftState) (spi_ok : Bool) : TftState × List Nat :=
  match s.op with
  | .NONE => (s, [])
  | .FILL =>
    let remaining := TFT_PIXELS - s.fill_sent_pixels
    if remaining = 0 then ({ s with op := .NONE }, [])
    else
      let bytes := if TFT_CHUNK_BYTES % 2 = 1 then TFT_CHUNK_BYTES - 1 else TFT_CHUNK_BYTES
      let max_pixels := bytes / 2
      let this_pixels := if remaining > max_pixels then max_pixels else remaining
      let hi := s.fill_color / 256 % 256
      let lo := s.fill_color % 256
      let chunk := List.flatten (List.replicate this_pixels [hi, lo])
      if spi_ok = false then (s, [])
      else
        let sent := s.fill_sent_pixels + this_pixels
        if sent ≥ TFT_PIXELS then ({ s with fill_sent_pixels := sent, op := .NONE }, chunk)
        else ({ s with fill_sent_pixels := sent }, chunk)
  | .BLIT =>
    let remaining := s.blit_len - s.blit_sent
    if remaining = 0 then ({ s with op := .NONE }, [])
    else
      let max_pixels := TFT_CHUNK_BYTES / 2
      let rem_pixels := remaining / 2
      let this_pixels := if rem_pixels > max_pixels then max_pixels else rem_pixels
      let words := (s.blit_src.drop (s.blit_sent / 2)).take this_pixels
      let chunk := beBytes words
      if spi_ok = false then (s, [])
      else
        let sent := s.blit_sent + this_pixels * 2
        if sent ≥ s.blit_len then ({ s with blit_sent := sent, op := .NONE }, chunk)
        else ({ s with blit_sent := sent }, chunk)

/-- `TFT_IsBusy()`: `g_op != TFT_OP_NONE`. -/
def TFT_IsBusy (s : TftState) : Bool :=
  s.op ≠ .NONE

/-- Iterate `TFT_Task` with every bus write succeeding, collecting the emitted
byte stream. -/
def tftTaskN : Nat → TftState → TftState × List Nat
  | 0, s => (s, [])
  | k + 1, s =>
    let r := TFT_Task s true
    let r2 := tftTaskN k r.1
    (r2.1, r.2 ++ r2.2)

/- =============================================================================
   app_helpers.c — UI line manager
   =============================================================================

   #define UI_LINE_H 8U / UI_MAX_LINES 16U / UI_TEXT_MAX 128U
-/

def UI_MAX_LINES : Nat := 16

def UI_TEXT_MAX : Nat := 128

/-- `ui_line_t`: `{used, dirty, fg, bg, text[UI_TEXT_MAX], last[UI_TEXT_MAX]}`.
The two char arrays are modelled as the C strings they hold (contents up to the
NUL), which `App_UI_SetLine` keeps at ≤ `UI_TEXT_MAX - 1` characters. -/
structure ui_line_t where
  used : Bool
  dirty : Bool
  fg : Nat
  bg : Nat
  text : List Char
  last : List Char
deriving DecidableEq, Repr

/-- A zeroed `ui_line_t` (what `memset(...,0,...)` produces). -/
def uiLineZero : ui_line_t :=
  { used := false, dirty := false, fg := 0, bg := 0, text := [], last := [] }

instance : Inhabited ui_line_t := ⟨uiLineZero⟩

/-- The UI manager's file-scope state: `s_ui[UI_MAX_LINES]` and the round-robin
cursor `s_ui_rr`. -/
structure UiState where
  lines : List ui_line_t
  rr : Nat
deriving DecidableEq, Repr

/-- `App_UI_ClearAll()`: `memset(s_ui, 0, sizeof s_ui); s_ui_rr = 0;`. -/
def App_UI_ClearAll (_s : UiState) : UiState :=
  { lines := List.replicate UI_MAX_LINES uiLineZero, rr := 0 }

/-- `App_UI_ClearLine(idx)`: zero one entry (bounds-checked). -/
def App_UI_ClearLine (idx : Nat) (s : UiState) : UiState :=
  if idx ≥ UI_MAX_LINES then s
  else { s with lines := s.lines.set idx uiLineZero }

/-- `strncmp(a, b, n) == 0` on C strings: the strings agree on their first `n`
characters (a shorter string's NUL terminator makes any length difference below
`n` a mismatch). -/
def cstrncmpEq (a b : List Char) (n : Nat) : Bool :=
  a.take n == b.take n

/-- `App_UI_SetLine(idx, fg, bg, text)`: bounds-checked; always refreshes
`used`/`fg`/`bg`; copies the text (truncated to `UI_TEXT_MAX - 1` chars by
`strncpy` + forced NUL) and sets `dirty` only when
`strncmp(L->text, text, UI_TEXT_MAX) != 0`. -/
def App_UI_SetLine (idx fg bg : Nat) (text : List Char) (s : UiState) : UiState :=
  if idx ≥ UI_MAX_LINES then s
  else
    let L := s.lines.getD idx uiLineZero
    let L1 := { L with used := true, fg := fg, bg := bg }
    let L2 := if cstrncmpEq L.text text UI_TEXT_MAX then L1
              else { L1 with text := text.take (UI_TEXT_MAX - 1), dirty := true }
    { s with lines := s.lines.set idx L2 }

/-- `ui_active_count()`: index of the last `used` entry plus one (0 if none). -/
def ui_active_count (lines : List ui_line_t) : Nat :=
  (List.range UI_MAX_LINES).foldl
    (fun acc i => if (lines.getD i uiLineZero).used then i + 1 else acc) 0

/-- The scan loop of `ui_pump_once`: `for (k = 0; k < n; k++)` starting at the
round-robin cursor; on the first used entry with `dirty || strcmp(text,last)!=0`
it submits the line (`TFT_DrawTextLine_Async(idx*8, text, fg, bg)`), copies
`text` into `last`, clears `dirty`, advances the cursor past the line and
returns. Falling off the end resets the cursor to 0. `fuel` counts the
remaining iterations (initially `n`), `k` the current offset. -/
def uiScanAux (lines : List ui_line_t) (rr n : Nat) :
    Nat → Nat → List ui_line_t × Nat × Option (Nat × List Char)
  | _, 0 => (lines, 0, none)
  | k, fuel + 1 =>
    let idx := (rr + k) % n
    let L := lines.getD idx uiLineZero
    if L.used = false then uiScanAux lines rr n (k + 1) fuel
    else if L.dirty || !(L.text == L.last) then
      (lines.set idx { L with last := L.text.take (UI_TEXT_MAX - 1), dirty := false },
        (idx + 1) % n, some (idx, L.text))
    else uiScanAux lines rr n (k + 1) fuel

/-- `ui_pump_once()`: no-op while the render engine is busy or no line is
active; otherwise runs the round-robin scan. Returns the new state and the
submitted line (index and text), if any. -/
def ui_pump_once (tft_busy : Bool) (s : UiState) : UiState × Option (Nat × List Char) :=
  if tft_busy then (s, none)
  else
    let n := ui_active_count s.lines
    if n = 0 then (s, none)
    else
      let r := uiScanAux s.lines s.rr n 0 n
      ({ lines := r.1, rr := r.2.1 }, r.2.2)

/-- The UI operations a client can perform, for stating reachability
invariants. -/
inductive UiOp where
  | set (idx fg bg : Nat) (text : List Char)
  | pump (tft_busy : Bool)
  | clearLine (idx : Nat)
  | clearAll
deriving DecidableEq, Repr

def uiApply (s : UiState) : UiOp → UiState
  | .set idx fg bg t => App_UI_SetLine idx fg bg t s
  | .pump b => (ui_pump_once b s).1
  | .clearLine i => App_UI_ClearLine i s
  | .clearAll => App_UI_ClearAll s

/-- Run a sequence of UI operations from the cleared state (`App_Init` calls
`App_UI_ClearAll` before the loop starts). -/
def uiRun (ops : List UiOp) : UiState :=
  ops.foldl uiApply (App_UI_ClearAll { lines := [], rr := 0 })

/-- Per-entry invariant: stored text fits the cache, and an entry whose desired
text differs from its last-rendered text is flagged dirty. -/
def uiLineInv (L : ui_line_t) : Prop :=
  L.text.length ≤ UI_TEXT_MAX - 1 ∧ L.last.length ≤ UI_TEXT_MAX - 1 ∧
    (L.text ≠ L.last → L.dirty = true)

def uiInv (s : UiState) : Prop :=
  s.lines.length = UI_MAX_LINES ∧ ∀ i, uiLineInv (s.lines.getD i uiLineZero)

/- =============================================================================
   Shared 32-bit wrap-around helpers (signed-delta comparisons on uint32 clocks)
   =============================================================================
-/

/-- `2^32`, the modulus of the firmware's `uint32_t` millisecond clock. -/
def U32 : Nat := 4294967296

/-- `uint32_t` subtraction `a - b` (wrap-around). -/
def u32sub (a b : Nat) : Nat :=
  (a % U32 + U32 - b % U32) % U32

/-- `(int32_t)d < 0` for a `uint32_t` value `d`: its top bit is set. -/
def i32lt0 (d : Nat) : Bool :=
  2147483648 ≤ d % U32

/- =============================================================================
   i2c.c — sensor poll service with bus recovery
   =============================================================================
-/

/-- HAL I2C error flag values (from the HAL header, an external collaborator). -/
def HAL_I2C_ERROR_NONE : Nat := 0x00

def HAL_I2C_ERROR_BERR : Nat := 0x01

def HAL_I2C_ERROR_ARLO : Nat := 0x02

def HAL_I2C_ERROR_AF : Nat := 0x04

def HAL_I2C_ERROR_OVR : Nat := 0x08

def HAL_I2C_ERROR_DMA : Nat := 0x10

def HAL_I2C_ERROR_TIMEOUT : Nat := 0x20

/-- `I2C_ErrStr(e)`: map HAL error flags to the sticky diagnostic symbol. -/
def I2C_ErrStr (e : Nat) : String :=
  if e = HAL_I2C_ERROR_NONE then "NONE"
  else if e &&& HAL_I2C_ERROR_AF ≠ 0 then "NACK"
  else if e &&& HAL_I2C_ERROR_TIMEOUT ≠ 0 then "TIMEOUT"
  else if e &&& HAL_I2C_ERROR_BERR ≠ 0 then "BUS"
  else if e &&& HAL_I2C_ERROR_ARLO ≠ 0 then "ARLO"
  else if e &&& HAL_I2C_ERROR_OVR ≠ 0 then "OVR"
  else if e &&& HAL_I2C_ERROR_DMA ≠ 0 then "DMA"
  else "UNKNOWN"

/-- HAL call status (`HAL_StatusTypeDef`). -/
inductive HAL_Status where
  | OK
  | ERROR
  | BUSY
  | TIMEOUT
deriving DecidableEq, Repr

/-- Environment outcome of one `HAL_I2C_Master_Receive` call: the returned
status, the two data bytes, and the error flags a subsequent
`HAL_I2C_GetError` would report. -/
structure I2CAttempt where
  st : HAL_Status
  b0 : Nat
  b1 : Nat
  err : Nat
deriving DecidableEq, Repr

/-- Reinterpret a 16-bit value as `int16_t`. -/
def toInt16 (n : Nat) : Int :=
  if n % 65536 < 32768 then (n % 65536 : Int) else (n % 65536 : Int) - 65536

/-- `I2C_ReadTempFromESP32`: on HAL_OK, decode the two bytes as int16
little-endian (`buf[0] | buf[1] << 8`); otherwise propagate the status. -/
def I2C_ReadTempFromESP32 (a : I2CAttempt) : HAL_Status × Option Int :=
  if a.st ≠ .OK then (a.st, none)
  else (.OK, some (toInt16 (a.b0 % 256 + 256 * (a.b1 % 256))))

/-- Result published by `I2C_ReadTemp_Fixed`: final HAL status, the decoded
value on success, the value left in `g_i2c_last_err`, and how many times
`I2C1_BusRecover()` ran. -/
structure FixedResult where
  st : HAL_Status
  val : Option Int
  lastErr : String
  recoveries : Nat
deriving DecidableEq, Repr

/-- `I2C_ReadTemp_Fixed`: first read; on success clear the error symbol. On
failure record `I2C_ErrStr(HAL_I2C_GetError())`, run `I2C1_BusRecover()` once,
and retry exactly once; the retry either clears the symbol (success) or
overwrites it from the second failure's error flags. `a1`/`a2` are the two bus
read outcomes supplied by the environment. -/
def I2C_ReadTemp_Fixed (a1 a2 : I2CAttempt) : FixedResult :=
  let r1 := I2C_ReadTempFromESP32 a1
  if r1.1 = .OK then { st := .OK, val := r1.2, lastErr := "NONE", recoveries := 0 }
  else
    let r2 := I2C_ReadTempFromESP32 a2
    if r2.1 = .OK then { st := .OK, val := r2.2, lastErr := "NONE", recoveries := 1 }
    else { st := r2.1, val := none, lastErr := I2C_ErrStr a2.err, recoveries := 1 }

/-- The sensor service's published state: `g_i2c_ok`, `g_i2c_temp`,
`g_i2c_last_err` and the static poll deadline `nextPollMs`. (`g_i2c_temp` only
ever holds exact int16 values, so the C `float` is modelled as `Int`.) -/
structure SensorState where
  ok : Nat
  temp : Int
  lastErr : String
  nextPollMs : Nat
deriving DecidableEq, Repr

/-- `App_I2C_Service(now_ms)`: no-op until the 500 ms deadline fires
(signed-delta check); then one fixed read updates the published state. Returns
the new state and the number of bus recoveries executed during this call. -/
def App_I2C_Service (now_ms : Nat) (a1 a2 : I2CAttempt) (s : SensorState) :
    SensorState × Nat :=
  if i32lt0 (u32sub now_ms s.nextPollMs) then (s, 0)
  else
    let r := I2C_ReadTemp_Fixed a1 a2
    let s1 := { s with nextPollMs := (now_ms + 500) % U32, lastErr := r.lastErr }
    if r.st = .OK then
      ({ s1 with temp := r.val.getD s.temp, ok := 1 }, r.recoveries)
    else
      ({ s1 with ok := 0 }, r.recoveries)

/- =============================================================================
   main.c — cooperative main loop with terminal idle wait
   =============================================================================
-/

/-- One scheduler action of the main loop body, in source order; `wfi` is the
`__WFI()` core-halt. -/
inductive LoopStep where
  | net
  | usb
  | can
  | i2c
  | tftTask
  | tftSvc
  | cli
  | tick
  | wfi
deriving DecidableEq, Repr

/-- The service tick functions the loop calls, as abstract transformers of the
system state `σ`, plus the two idle-condition observations
(`App_USBLog_IsEmpty()`, i.e. `CDC_ConsoleTxIsEmpty()`, and `TFT_IsBusy()`). -/
structure LoopEnv (σ : Type) where
  netService : Nat → σ → σ
  usbService : σ → σ
  canService : Nat → σ → σ
  i2cService : Nat → σ → σ
  tftTask : σ → σ
  tftService : Nat → σ → σ
  cliService : Nat → σ → σ
  appTick : Nat → σ → σ
  usbLogEmpty : σ → Bool
  tftBusy : σ → Bool

/-- The eight service calls of one loop iteration, in the order of main.c:
`APP_NET_Service`, `App_USB_Service`, `App_CAN_Service`, `App_I2C_Service`,
`TFT_Task`, `App_TFT_Service`, `App_CLI_Service`, `App_Tick`. -/
def runServices {σ : Type} (E : LoopEnv σ) (now : Nat) (s : σ) : σ :=
  E.appTick now (E.cliService now (E.tftService now (E.tftTask
    (E.i2cService now (E.canService now (E.usbService (E.netService now s)))))))

/-- One iteration of `while (1)` in `main()`: run all services on the tick read
at the top, then `if (App_USBLog_IsEmpty() && !TFT_IsBusy()) __WFI();`.
Returns the new state and the trace of steps taken. -/
def mainLoopIter {σ : Type} (E : LoopEnv σ) (now : Nat) (s : σ) : σ × List LoopStep :=
  let s8 := runServices E now s
  (s8, [.net, .usb, .can, .i2c, .tftTask, .tftSvc, .cli, .tick] ++
    (if E.usbLogEmpty s8 && !(E.tftBusy s8) then [.wfi] else []))

/- =============================================================================
   app_net.c — telemetry serializer, TCP single-flight send, reconnect gate
   =============================================================================
-/

/-- `AppTelemetry` (app_net.h): `uint32_t now_ms; int32_t i2c_temp_c;
char can_0x101[64]; char can_0x120[64];`. -/
structure AppTelemetry where
  now_ms : Nat
  i2c_temp_c : Int
  can_0x101 : List Char
  can_0x120 : List Char
deriving DecidableEq, Repr

def digitChar (d : Nat) : Char :=
  Char.ofNat (48 + d)

/-- Little-endian base-10 digits of `n` (fuel-based structural recursion so the
kernel can evaluate it; `digitsLE n n = Nat.digits 10 n`). -/
def digitsLE : Nat → Nat → List Nat
  | 0, _ => []
  | fuel + 1, n => if n = 0 then [] else n % 10 :: digitsLE fuel (n / 10)

/-- Decimal digits of `n`, most significant first (at least one digit, as
printf's `%lu` produces). -/
def decDigits (n : Nat) : List Nat :=
  if n = 0 then [0] else (digitsLE n n).reverse

/-- `%lu` rendering of an unsigned value. -/
def natToDec (n : Nat) : List Char :=
  (decDigits n).map digitChar

/-- `%ld` rendering of a signed value. -/
def intToDec (i : Int) : List Char :=
  if i < 0 then '-' :: natToDec i.natAbs else natToDec i.toNat

/- The pieces of the format string
`"{\x22ts\x22:%lu,\x22i2c\x22:%ld,\x22can101\x22:\x22%s\x22,\x22can120\x22:\x22%s\x22}\n"`
shared verbatim by APP_NET_SendUDP and APP_NET_SendTCP (braces and quotes are
spelled via `Char.ofNat`: 123 = left brace, 125 = right brace, 34 = quote). -/

def keyTs : List Char := [Char.ofNat 123, Char.ofNat 34, 't', 's', Char.ofNat 34, ':']

def keyI2c : List Char := [',', Char.ofNat 34, 'i', '2', 'c', Char.ofNat 34, ':']

def keyCan101 : List Char :=
  [',', Char.ofNat 34, 'c', 'a', 'n', '1', '0', '1', Char.ofNat 34, ':', Char.ofNat 34]

def keyCan120 : List Char :=
  [Char.ofNat 34, ',', Char.ofNat 34, 'c', 'a', 'n', '1', '2', '0', Char.ofNat 34, ':',
    Char.ofNat 34]

def keyEnd : List Char := [Char.ofNat 34, Char.ofNat 125, '\n']

/-- The full formatted telemetry record (before snprintf's buffer clamp). -/
def serializeTelemetry (t : AppTelemetry) : List Char :=
  keyTs ++ natToDec t.now_ms ++ keyI2c ++ intToDec t.i2c_temp_c ++
    keyCan101 ++ t.can_0x101 ++ keyCan120 ++ t.can_0x120 ++ keyEnd

/-- What `snprintf(msg, 256, ...)` actually stores: the record truncated to
255 characters (buffer size minus the NUL). -/
def telemetryWire (t : AppTelemetry) : List Char :=
  (serializeTelemetry t).take 255

/-- Decoder for the wire record: read the literal `ts` key, a decimal
timestamp, the literal `i2c` key and a (possibly negative) decimal reading.
`expectLit pat s` consumes the literal `pat` from the front of `s`. -/
def expectLit : List Char → List Char → Option (List Char)
  | [], s => some s
  | _ :: _, [] => none
  | p :: ps, c :: cs => if c = p then expectLit ps cs else none

/-- Parse a run of leading decimal digits, accumulator-style. -/
def parseNatAux : List Char → Nat → Nat × List Char
  | [], acc => (acc, [])
  | c :: rest, acc =>
    if c.isDigit then parseNatAux rest (acc * 10 + (c.toNat - 48))
    else (acc, c :: rest)

/-- Parse a decimal number that must start with at least one digit. -/
def parseNatStrict (s : List Char) : Option (Nat × List Char) :=
  match s with
  | [] => none
  | c :: _ => if c.isDigit then some (parseNatAux s 0) else none

/-- Parse an optionally `-`-signed decimal number. -/
def parseIntStrict (s : List Char) : Option (Int × List Char) :=
  match s with
  | [] => none
  | c :: rest =>
    if c = '-' then
      match parseNatStrict rest with
      | none => none
      | some (n, r) => some (-(n : Int), r)
    else
      match parseNatStrict s with
      | none => none
      | some (n, r) => some ((n : Int), r)

def decodeTelemetry (msg : List Char) : Option (Nat × Int) :=
  (expectLit keyTs msg).bind fun r1 =>
    (parseNatStrict r1).bind fun p1 =>
      (expectLit keyI2c p1.2).bind fun r3 =>
        (parseIntStrict r3).map fun p2 => (p1.1, p2.1)

/-- `tcp_state_t` of app_net.c. -/
inductive tcp_state_t where
  | DOWN
  | CONNECTING
  | UP
deriving DecidableEq, Repr

/-- The TCP client's file-scope state: `g_tcp_state`, whether `g_tcp` is
non-NULL, the single-message TX buffer `g_tcp_txbuf`/`g_tcp_txlen`, and the
reconnect deadline `g_next_tcp_reconnect_ms`. -/
structure NetState where
  st : tcp_state_t
  pcb : Bool
  txlen : Nat
  txbuf : List Char
  nextReconnectMs : Nat
deriving DecidableEq, Repr

/-- `APP_NET_TcpIsConnected()`: `g_tcp_state == TCP_UP && g_tcp != NULL`. -/
def APP_NET_TcpIsConnected (s : NetState) : Bool :=
  decide (s.st = .UP) && s.pcb

/-- `APP_NET_SendTCP(t)`: reject on NULL argument, not-connected, or a nonzero
pending-length guard (all before touching the TX buffer); then format the
record into the buffer, set the guard, and clear it again if `tcp_write` or
`tcp_output` fails (`write_ok` / `output_ok` are those two lwIP results). -/
def APP_NET_SendTCP (t : Option AppTelemetry) (write_ok output_ok : Bool)
    (s : NetState) : Bool × NetState :=
  match t with
  | none => (false, s)
  | some t =>
    if APP_NET_TcpIsConnected s = false then (false, s)
    else if s.txlen ≠ 0 then (false, s)
    else
      let n := (serializeTelemetry t).length
      let buf := (serializeTelemetry t).take 255
      if n = 0 then (false, { s with txbuf := buf })
      else
        let s1 := { s with txbuf := buf, txlen := min n 255 }
        if write_ok = false then (false, { s1 with txlen := 0 })
        else if output_ok = false then (false, { s1 with txlen := 0 })
        else (true, s1)

/-- `on_tcp_sent` callback: the acknowledged send clears the guard. -/
def on_tcp_sent (s : NetState) : NetState :=
  { s with txlen := 0 }

/-- `tcp_start_connect(now_ms)`: no-op while UP or CONNECTING; otherwise
allocate a pcb (`alloc_ok` = `tcp_new_ip_type` success) and call `tcp_connect`
(`conn_ok` = it returned ERR_OK); on either failure fall back to DOWN with the
reconnect deadline pushed 2000 ms out. The returned flag reports whether a
connection attempt was issued (the state moved from Down toward Connecting). -/
def tcp_start_connect (now_ms : Nat) (alloc_ok conn_ok : Bool) (s : NetState) :
    NetState × Bool :=
  if s.st = .UP ∨ s.st = .CONNECTING then (s, false)
  else if alloc_ok = false then
    ({ s with st := .DOWN, pcb := false, nextReconnectMs := (now_ms + 2000) % U32 },
      false)
  else if conn_ok then ({ s with st := .CONNECTING, pcb := true }, true)
  else
    ({ s with st := .DOWN, pcb := false, txlen := 0,
              nextReconnectMs := (now_ms + 2000) % U32 }, true)

/-- The reconnect portion of `APP_NET_Poll(now_ms)` (the lwIP pump calls that
precede it do not touch this state): when not connected and the deadline is the
0 sentinel or has passed (signed-delta check), call `tcp_start_connect` and
re-arm the deadline 2000 ms out. -/
def pollReconnect (now_ms : Nat) (alloc_ok conn_ok : Bool) (s : NetState) :
    NetState × Bool :=
  if APP_NET_TcpIsConnected s then (s, false)
  else if s.nextReconnectMs = 0 ∨ i32lt0 (u32sub now_ms s.nextReconnectMs) = false then
    let r := tcp_start_connect now_ms alloc_ok conn_ok s
    ({ r.1 with nextReconnectMs := (now_ms + 2000) % U32 }, r.2)
  else (s, false)

/-- Input of one poll step: the clock value and the connection fields as the
lwIP callbacks (which never touch the reconnect deadline) may have left them
since the previous poll, plus the two lwIP call outcomes. -/
structure PollIn where
  now : Nat
  extSt : tcp_state_t
  extPcb : Bool
  alloc_ok : Bool
  conn_ok : Bool
deriving DecidableEq, Repr

/-- Run a sequence of poll steps, threading the reconnect deadline and
collecting the clock times at which a connection attempt was issued. -/
def netRun : List PollIn → NetState → NetState × List Nat
  | [], s => (s, [])
  | i :: rest, s =>
    let s0 := { s with st := i.extSt, pcb := i.extPcb }
    let r := pollReconnect i.now i.alloc_ok i.conn_ok s0
    let r2 := netRun rest r.1
    (r2.1, (if r.2 then [i.now] else []) ++ r2.2)

theorem tftTaskN_succ_right (k : Nat) (s : TftState) :
    tftTaskN (k + 1) s =
      ((TFT_Task (tftTaskN k s).1 true).1,
        (tftTaskN k s).2 ++ (TFT_Task (tftTaskN k s).1 true).2) := by
  induction k generalizing s with
  | zero => simp [tftTaskN]
  | succ n ih =>
    show (let r := TFT_Task s true
          let r2 := tftTaskN (n + 1) r.1
          ((r2.1 : TftState), r.2 ++ r2.2)) = _
    simp only
    rw [ih]
    simp only [tftTaskN]
    simp [List.append_assoc]

theorem tft_fill_step (s : TftState) (n : Nat) (hop : s.op = .FILL)
    (hsent : s.fill_sent_pixels = 256 * n) (hn : n < 80) :
    TFT_Task s true =
      ({ s with fill_sent_pixels := 256 * (n + 1),
                op := if n + 1 = 80 then .NONE else .FILL },
       List.flatten (List.replicate 256 [s.fill_color / 256 % 256, s.fill_color % 256])) := by
  obtain ⟨op, fc, fs, bsrc, blen, bsent⟩ := s
  simp only at hop hsent
  subst hop
  subst hsent
  simp only [TFT_Task, TFT_PIXELS, TFT_W, TFT_H, TFT_CHUNK_BYTES]
  rw [show (if (512 : Nat) % 2 = 1 then 512 - 1 else 512) = 512 from rfl]
  have h1 : ¬(160 * 128 - 256 * n = 0) := by omega
  rw [if_neg h1, if_neg (show ¬(true = false) from by simp)]
  by_cases h2 : n + 1 = 80
  · have hn79 : n = 79 := by omega
    subst hn79
    norm_num
  · rw [if_pos (show 160 * 128 - 256 * n > 512 / 2 from by omega)]
    rw [if_neg (show ¬(256 * n + 512 / 2 ≥ 160 * 128) from by omega), if_neg h2,
        show 256 * (n + 1) = 256 * n + 512 / 2 from by omega]

theorem tft_fill_iter (c : Nat) (s : TftState) (k : Nat) (hk : k ≤ 80) :
    tftTaskN k (TFT_FillColor_Async c s) =
      ({ s with fill_color := c, fill_sent_pixels := 256 * k,
                op := if k = 80 then .NONE else .FILL },
       List.flatten (List.replicate (256 * k)
         [c / 256 % 256, c % 256])) := by
  induction k with
  | zero =>
    simp [tftTaskN, TFT_FillColor_Async]
  | succ n ih =>
    have hn : n ≤ 80 := by omega
    rw [tftTaskN_succ_right, ih hn]
    have hop : (if n = 80 then tft_op_t.NONE else .FILL) = .FILL := by
      rw [if_neg (by omega : ¬n = 80)]
    rw [tft_fill_step _ n (by simp [hop]) (by simp) (by omega)]
    simp only
    rw [show 256 * (n + 1) = 256 * n + 256 from by ring, List.replicate_add,
        List.flatten_append]

theorem tft_blit_step (s : TftState) (n : Nat) (hop : s.op = .BLIT)
    (hlen : s.blit_len = 2560) (hsent : s.blit_sent = 512 * n) (hn : n < 5) :
    TFT_Task s true =
      ({ s with blit_sent := 512 * (n + 1),
                op := if n + 1 = 5 then .NONE else .BLIT },
       beBytes ((s.blit_src.drop (256 * n)).take 256)) := by
  obtain ⟨op, fc, fs, bsrc, blen, bsent⟩ := s
  simp only at hop hlen hsent
  subst hop
  subst hlen
  subst hsent
  simp only [TFT_Task, TFT_CHUNK_BYTES]
  have h1 : ¬(2560 - 512 * n = 0) := by omega
  rw [if_neg h1, if_neg (show ¬(true = false) from by simp)]
  by_cases h2 : n + 1 = 5
  · have hn4 : n = 4 := by omega
    subst hn4
    norm_num
  · rw [if_pos (show (2560 - 512 * n) / 2 > 512 / 2 from by omega)]
    rw [if_neg (show ¬(512 * n + 512 / 2 * 2 ≥ 2560) from by omega), if_neg h2,
        show 512 * (n + 1) = 512 * n + 512 / 2 * 2 from by omega,
        show 512 * n / 2 = 256 * n from by omega]

theorem tft_blit_iter (linebuf : List Nat) (s : TftState) (hs : s.op = .NONE)
    (y : Nat) (hy : y < TFT_H) (k : Nat) (hk : k ≤ 5) :
    tftTaskN k (TFT_DrawTextLine_Async y linebuf s) =
      ({ s with blit_src := linebuf, blit_len := 2560, blit_sent := 512 * k,
                op := if k = 5 then .NONE else .BLIT },
       beBytes (linebuf.take (256 * k))) := by
  have hstart : TFT_DrawTextLine_Async y linebuf s =
      { s with blit_src := linebuf, blit_len := 2560, blit_sent := 0, op := .BLIT } := by
    unfold TFT_DrawTextLine_Async
    rw [if_neg (by omega : ¬y ≥ TFT_H), if_neg (by simp [hs])]
    rfl
  induction k with
  | zero =>
    simp [tftTaskN, hstart, beBytes]
  | succ n ih =>
    have hn : n ≤ 5 := by omega
    rw [tftTaskN_succ_right, ih hn]
    have hop : (if n = 5 then tft_op_t.NONE else .BLIT) = .BLIT := by
      rw [if_neg (by omega : ¬n = 5)]
    rw [tft_blit_step _ n (by simp [hop]) (by simp) (by simp) (by omega)]
    simp only
    rw [show 256 * (n + 1) = 256 * n + 256 from by ring, List.take_add]
    simp [beBytes]

theorem beBytes_length (ws : List Nat) : (beBytes ws).length = 2 * ws.length := by
  induction ws with
  | nil => simp [beBytes]
  | cons w t ih =>
    simp [beBytes] at ih ⊢
    omega

/-- **C1**: after `TFT_FillColor_Async(color)`, a run of `TFT_Task()` calls whose
bus writes succeed stays busy for the first 79 calls, and after exactly 80
successful calls has pushed exactly `TFT_W * TFT_H = 20480` pixels of that color
(as the big-endian RGB565 byte stream) and is idle again; after
`TFT_DrawTextLine_Async` (which starts a blit of `160*8*2 = 2560` bytes from the
rendered line buffer), exactly `ceil(2560/512) = 5` successful `TFT_Task()`
calls transfer exactly 2560 bytes — the entire buffer — and return the engine to
idle. -/
theorem C1_fill_and_blit_transfer_exactly
    (color : Nat) (s0 : TftState)
    (linebuf : List Nat) (hlen : linebuf.length = 1280)
    (y : Nat) (hy : y < TFT_H) (sB : TftState) (hB : TFT_IsBusy sB = false) :
    ((∀ k, k < 80 → TFT_IsBusy (tftTaskN k (TFT_FillColor_Async color s0)).1 = true) ∧
      TFT_IsBusy (tftTaskN 80 (TFT_FillColor_Async color s0)).1 = false ∧
      (tftTaskN 80 (TFT_FillColor_Async color s0)).2 =
        List.flatten (List.replicate TFT_PIXELS [color / 256 % 256, color % 256])) ∧
    ((∀ k, k < 5 → TFT_IsBusy (tftTaskN k (TFT_DrawTextLine_Async y linebuf sB)).1 = true) ∧
      TFT_IsBusy (tftTaskN 5 (TFT_DrawTextLine_Async y linebuf sB)).1 = false ∧
      (tftTaskN 5 (TFT_DrawTextLine_Async y linebuf sB)).2 = beBytes linebuf ∧
      (beBytes linebuf).length = TFT_W * 8 * 2) := by
  have hBop : sB.op = .NONE := by
    simp [TFT_IsBusy] at hB
    exact hB
  refine ⟨⟨?_, ?_, ?_⟩, ?_, ?_, ?_, ?_⟩
  · intro k hk
    rw [tft_fill_iter color s0 k (by omega)]
    simp [TFT_IsBusy, if_neg (by omega : ¬k = 80)]
  · rw [tft_fill_iter color s0 80 (by omega)]
    simp [TFT_IsBusy]
  · rw [tft_fill_iter color s0 80 (by omega)]
    rfl
  · intro k hk
    rw [tft_blit_iter linebuf sB hBop y hy k (by omega)]
    simp [TFT_IsBusy, if_neg (by omega : ¬k = 5)]
  · rw [tft_blit_iter linebuf sB hBop y hy 5 (by omega)]
    simp [TFT_IsBusy]
  · rw [tft_blit_iter linebuf sB hBop y hy 5 (by omega)]
    simp only
    rw [show 256 * 5 = linebuf.length from by omega, List.take_length]
  · rw [beBytes_length, hlen]
    rfl

theorem C1_witness :
    (List.replicate 1280 0).length = 1280 ∧ (0 : Nat) < TFT_H ∧
    TFT_IsBusy tftInit = false ∧
    TFT_IsBusy (tftTaskN 80 (TFT_FillColor_Async 0 tftInit)).1 = false := by
  refine ⟨by simp, by decide, by decide, ?_⟩
  exact (C1_fill_and_blit_transfer_exactly 0 tftInit (List.replicate 1280 0)
    (by simp) 0 (by decide) tftInit (by decide)).1.2.1

/-- **C2** counterexample: with a blit in flight, `TFT_FillColor_Async` is not
rejected — it replaces the active operation (tag changes from `BLIT` to `FILL`),
contradicting "a Start call issued while an operation is active is rejected and
leaves the active operation's state unchanged". (Neither Start call returns a
boolean either: both are `void` in tft.h.) -/
theorem C2_counterexample :
    TFT_IsBusy (TFT_DrawTextLine_Async 0 [1] tftInit) = true ∧
    (TFT_DrawTextLine_Async 0 [1] tftInit).op = tft_op_t.BLIT ∧
    (TFT_FillColor_Async 5 (TFT_DrawTextLine_Async 0 [1] tftInit)).op = tft_op_t.FILL := by
  decide

/-- **C2** (amended): `TFT_DrawTextLine_Async` begins a new operation only when
none is active — issued while busy it leaves the engine state entirely
unchanged — whereas `TFT_FillColor_Async` unconditionally begins a fill,
overwriting any active operation's state; neither call reports acceptance or
rejection (both return `void`). -/
theorem C2_start_gating_amended (y : Nat) (buf : List Nat) (c : Nat) (s : TftState) :
    (TFT_IsBusy s = true → TFT_DrawTextLine_Async y buf s = s) ∧
    (TFT_IsBusy s = false → y < TFT_H →
      (TFT_DrawTextLine_Async y buf s).op = .BLIT ∧
      (TFT_DrawTextLine_Async y buf s).blit_src = buf ∧
      (TFT_DrawTextLine_Async y buf s).blit_len = 2560 ∧
      (TFT_DrawTextLine_Async y buf s).blit_sent = 0) ∧
    ((TFT_FillColor_Async c s).op = .FILL ∧
      (TFT_FillColor_Async c s).fill_color = c ∧
      (TFT_FillColor_Async c s).fill_sent_pixels = 0) := by
  refine ⟨?_, ?_, by simp [TFT_FillColor_Async]⟩
  · intro hbusy
    simp [TFT_IsBusy] at hbusy
    simp [TFT_DrawTextLine_Async, hbusy]
  · intro hidle hy
    simp [TFT_IsBusy] at hidle
    unfold TFT_DrawTextLine_Async
    rw [if_neg (by omega : ¬y ≥ TFT_H), if_neg (by simp [hidle])]
    refine ⟨rfl, rfl, rfl, rfl⟩

theorem C2_witness :
    TFT_IsBusy (TFT_FillColor_Async 3 tftInit) = true ∧
    TFT_DrawTextLine_Async 0 [] (TFT_FillColor_Async 3 tftInit) =
      TFT_FillColor_Async 3 tftInit := by
  refine ⟨by decide, ?_⟩
  exact (C2_start_gating_amended 0 [] 3 (TFT_FillColor_Async 3 tftInit)).1 (by decide)

/- ---- UI line manager lemmas ---- -/

theorem getD_set_self (l : List ui_line_t) (i : Nat) (a : ui_line_t)
    (h : i < l.length) : (l.set i a).getD i uiLineZero = a := by
  simp [List.getD, List.getElem?_set_self, h]

theorem getD_set_other (l : List ui_line_t) (i j : Nat) (a : ui_line_t)
    (hij : i ≠ j) : (l.set i a).getD j uiLineZero = l.getD j uiLineZero := by
  simp [List.getD, List.getElem?_set_ne hij]

theorem uiScanAux_spec (lines : List ui_line_t) (rr n : Nat) :
    ∀ fuel k,
      ((uiScanAux lines rr n k fuel).2.2 = none →
        (uiScanAux lines rr n k fuel).1 = lines ∧
        (uiScanAux lines rr n k fuel).2.1 = 0) ∧
      (∀ idx t, (uiScanAux lines rr n k fuel).2.2 = some (idx, t) →
        (lines.getD idx uiLineZero).used = true ∧
        ((lines.getD idx uiLineZero).dirty = true ∨
          (lines.getD idx uiLineZero).text ≠ (lines.getD idx uiLineZero).last) ∧
        t = (lines.getD idx uiLineZero).text ∧
        (uiScanAux lines rr n k fuel).1 =
          lines.set idx { lines.getD idx uiLineZero with
                          last := (lines.getD idx uiLineZero).text.take (UI_TEXT_MAX - 1),
                          dirty := false } ∧
        (uiScanAux lines rr n k fuel).2.1 = (idx + 1) % n) := by
  intro fuel
  induction fuel with
  | zero =>
    intro k
    refine ⟨fun _ => ⟨rfl, rfl⟩, fun idx t h => ?_⟩
    simp [uiScanAux] at h
  | succ m ih =>
    intro k
    simp only [uiScanAux]
    by_cases hused : (lines.getD ((rr + k) % n) uiLineZero).used = false
    · rw [if_pos hused]
      exact ih (k + 1)
    · rw [if_neg hused]
      by_cases hcond : ((lines.getD ((rr + k) % n) uiLineZero).dirty ||
          !((lines.getD ((rr + k) % n) uiLineZero).text ==
            (lines.getD ((rr + k) % n) uiLineZero).last)) = true
      · rw [if_pos hcond]
        refine ⟨fun h => by simp at h, fun idx t h => ?_⟩
        simp only [Option.some.injEq, Prod.mk.injEq] at h
        obtain ⟨hidx, ht⟩ := h
        subst hidx
        refine ⟨by simpa using hused, ?_, ht.symm, rfl, rfl⟩
        rcases Bool.or_eq_true_iff.mp hcond with hd | hne
        · exact Or.inl hd
        · right
          intro heq
          rw [heq] at hne
          simp at hne
      · rw [if_neg hcond]
        exact ih (k + 1)

theorem ui_pump_once_submit (busy : Bool) (s : UiState) (idx : Nat) (t : List Char)
    (h : (ui_pump_once busy s).2 = some (idx, t)) :
    (s.lines.getD idx uiLineZero).used = true ∧
    ((s.lines.getD idx uiLineZero).dirty = true ∨
      (s.lines.getD idx uiLineZero).text ≠ (s.lines.getD idx uiLineZero).last) ∧
    t = (s.lines.getD idx uiLineZero).text ∧
    (ui_pump_once busy s).1.lines =
      s.lines.set idx { s.lines.getD idx uiLineZero with
                        last := (s.lines.getD idx uiLineZero).text.take (UI_TEXT_MAX - 1),
                        dirty := false } := by
  unfold ui_pump_once at h ⊢
  by_cases hb : busy = true
  · rw [if_pos hb] at h
    simp at h
  · rw [if_neg hb] at h ⊢
    by_cases hn : ui_active_count s.lines = 0
    · rw [if_pos hn] at h
      simp at h
    · rw [if_neg hn] at h ⊢
      have hs := (uiScanAux_spec s.lines s.rr (ui_active_count s.lines)
        (ui_active_count s.lines) 0).2 idx t h
      exact ⟨hs.1, hs.2.1, hs.2.2.1, hs.2.2.2.1⟩

theorem ui_pump_once_none_lines (busy : Bool) (s : UiState)
    (h : (ui_pump_once busy s).2 = none) :
    (ui_pump_once busy s).1.lines = s.lines := by
  unfold ui_pump_once at h ⊢
  by_cases hb : busy = true
  · rw [if_pos hb]
  · rw [if_neg hb] at h ⊢
    by_cases hn : ui_active_count s.lines = 0
    · rw [if_pos hn]
    · rw [if_neg hn] at h ⊢
      exact ((uiScanAux_spec s.lines s.rr (ui_active_count s.lines)
        (ui_active_count s.lines) 0).1 h).1

theorem getD_out_of_range (l : List ui_line_t) (i : Nat) (h : l.length ≤ i) :
    l.getD i uiLineZero = uiLineZero := by
  simp [List.getD, List.getElem?_eq_none h]

theorem uiLineInv_zero : uiLineInv uiLineZero := by
  refine ⟨by simp [uiLineZero], by simp [uiLineZero], fun h => absurd rfl h⟩

theorem getD_replicate_zero (m i : Nat) :
    (List.replicate m uiLineZero).getD i uiLineZero = uiLineZero := by
  induction m generalizing i with
  | zero => simp [List.getD]
  | succ k ih =>
    cases i with
    | zero => simp [List.replicate_succ]
    | succ j => simp [List.replicate_succ, ih j]

theorem uiInv_clearAll (s : UiState) : uiInv (App_UI_ClearAll s) := by
  refine ⟨by simp [App_UI_ClearAll], fun i => ?_⟩
  rw [App_UI_ClearAll]
  simp only
  rw [getD_replicate_zero]
  exact uiLineInv_zero

theorem uiInv_apply (s : UiState) (op : UiOp) (h : uiInv s) : uiInv (uiApply s op) := by
  obtain ⟨hlen, hinv⟩ := h
  cases op with
  | set idx fg bg t =>
    show uiInv (App_UI_SetLine idx fg bg t s)
    unfold App_UI_SetLine
    by_cases hb : idx ≥ UI_MAX_LINES
    · rw [if_pos hb]
      exact ⟨hlen, hinv⟩
    · rw [if_neg hb]
      refine ⟨by simp [hlen], fun i => ?_⟩
      by_cases hi : i = idx
      · subst hi
        rw [getD_set_self _ _ _ (by omega)]
        obtain ⟨hl1, hl2, hl3⟩ := hinv i
        by_cases hc : cstrncmpEq (s.lines.getD i uiLineZero).text t UI_TEXT_MAX = true
        · rw [if_pos hc]
          exact ⟨hl1, hl2, hl3⟩
        · rw [if_neg hc]
          refine ⟨?_, hl2, fun _ => rfl⟩
          simp [List.length_take]
      · rw [getD_set_other _ _ _ _ (fun hh => hi hh.symm)]
        exact hinv i
  | pump b =>
    show uiInv (ui_pump_once b s).1
    cases hsub : (ui_pump_once b s).2 with
    | none =>
      have hl := ui_pump_once_none_lines b s hsub
      exact ⟨by rw [hl, hlen], by rw [hl]; exact hinv⟩
    | some p =>
      obtain ⟨idx, t⟩ := p
      obtain ⟨hused, _hcond, _ht, hlines⟩ := ui_pump_once_submit b s idx t hsub
      have hidx : idx < s.lines.length := by
        by_contra hge
        rw [getD_out_of_range _ _ (by omega)] at hused
        simp [uiLineZero] at hused
      refine ⟨by rw [hlines]; simp [hlen], fun i => ?_⟩
      rw [hlines]
      by_cases hi : i = idx
      · subst hi
        rw [getD_set_self _ _ _ hidx]
        obtain ⟨hl1, _hl2, _hl3⟩ := hinv i
        refine ⟨hl1, by simp [List.length_take], fun hne => ?_⟩
        exact absurd (List.take_of_length_le hl1).symm hne
      · rw [getD_set_other _ _ _ _ (fun hh => hi hh.symm)]
        exact hinv i
  | clearLine idx =>
    show uiInv (App_UI_ClearLine idx s)
    unfold App_UI_ClearLine
    by_cases hb : idx ≥ UI_MAX_LINES
    · rw [if_pos hb]
      exact ⟨hlen, hinv⟩
    · rw [if_neg hb]
      refine ⟨by simp [hlen], fun i => ?_⟩
      by_cases hi : i = idx
      · subst hi
        rw [getD_set_self _ _ _ (by omega)]
        exact uiLineInv_zero
      · rw [getD_set_other _ _ _ _ (fun hh => hi hh.symm)]
        exact hinv i
  | clearAll =>
    exact uiInv_clearAll s

theorem uiInv_run (ops : List UiOp) : uiInv (uiRun ops) := by
  unfold uiRun
  have aux : ∀ (l : List UiOp) (s : UiState), uiInv s → uiInv (l.foldl uiApply s) := by
    intro l
    induction l with
    | nil => intro s hs; exact hs
    | cons o rest ih =>
      intro s hs
      exact ih (uiApply s o) (uiInv_apply s o hs)
  exact aux ops _ (uiInv_clearAll _)

/-- **C3** counterexample: set line 0 to "A", render it, set it to "B", then set
it back to "A". Now the entry's desired text equals its last-rendered text but
the dirty flag is still set — refuting `dirty ⇔ desired ≠ last-rendered` — and
the next `ui_pump_once` re-submits the unchanged line as a blit, refuting the
claimed consequence. -/
theorem C3_counterexample :
    let s := uiRun [UiOp.set 0 0 0 ['A'], UiOp.pump false,
                    UiOp.set 0 0 0 ['B'], UiOp.set 0 0 0 ['A']]
    ((s.lines.getD 0 uiLineZero).dirty = true ∧
      (s.lines.getD 0 uiLineZero).text = (s.lines.getD 0 uiLineZero).last) ∧
    (ui_pump_once false s).2 = some (0, ['A']) := by
  decide

/-- **C3** (amended): starting from the cleared state, after any sequence of UI
line-manager operations every entry whose desired text differs from its
last-rendered text is flagged dirty (the converse of the claimed equivalence
fails: an entry may be dirty while desired = last-rendered, when the text was
changed and changed back between renders), and `ui_pump_once` submits a line as
a blit only when that line is flagged dirty or its desired text differs from
its last-rendered text — hence, by the invariant, only when it is flagged
dirty. -/
theorem C3_dirty_tracking_amended (ops : List UiOp) :
    (∀ i, ((uiRun ops).lines.getD i uiLineZero).text ≠
        ((uiRun ops).lines.getD i uiLineZero).last →
      ((uiRun ops).lines.getD i uiLineZero).dirty = true) ∧
    (∀ busy idx t, (ui_pump_once busy (uiRun ops)).2 = some (idx, t) →
      ((uiRun ops).lines.getD idx uiLineZero).dirty = true ∧
      t = ((uiRun ops).lines.getD idx uiLineZero).text) := by
  have hinv := uiInv_run ops
  refine ⟨fun i => (hinv.2 i).2.2, fun busy idx t h => ?_⟩
  obtain ⟨_hused, hcond, ht, _⟩ := ui_pump_once_submit busy (uiRun ops) idx t h
  rcases hcond with hd | hne
  · exact ⟨hd, ht⟩
  · exact ⟨(hinv.2 idx).2.2 hne, ht⟩

theorem C3_witness :
    (ui_pump_once false (uiRun [UiOp.set 0 0 0 ['A']])).2 = some (0, ['A']) ∧
    ((uiRun [UiOp.set 0 0 0 ['A']]).lines.getD 0 uiLineZero).dirty = true := by
  refine ⟨by decide, ?_⟩
  exact ((C3_dirty_tracking_amended [UiOp.set 0 0 0 ['A']]).2 false 0 ['A']
    (by decide)).1

/-- **C7**: each `ui_pump_once` call submits at most one line; an
`App_UI_SetLine` call whose text equals the entry's currently stored desired
text never marks the line dirty and never changes the stored text (SetLine is
idempotent); and concretely, after line 0 has been set to "X" and rendered
once, 30 further identical `SetLine(0, attrs, "X")` calls leave `ui_pump_once`
with nothing to render. -/
theorem C7_pump_once_setline_idempotent :
    (∀ busy s, ((ui_pump_once busy s).2).toList.length ≤ 1) ∧
    (∀ idx fg bg t s, (s.lines.getD idx uiLineZero).text = t →
      ((App_UI_SetLine idx fg bg t s).lines.getD idx uiLineZero).dirty =
        (s.lines.getD idx uiLineZero).dirty ∧
      ((App_UI_SetLine idx fg bg t s).lines.getD idx uiLineZero).text =
        (s.lines.getD idx uiLineZero).text) ∧
    (ui_pump_once false
        ((fun s => App_UI_SetLine 0 0 0 ['X'] s)^[30]
          (uiRun [UiOp.set 0 0 0 ['X'], UiOp.pump false]))).2 = none := by
  refine ⟨fun busy s => by cases (ui_pump_once busy s).2 <;> simp, ?_, by decide⟩
  intro idx fg bg t s hts
  unfold App_UI_SetLine
  by_cases hb : idx ≥ UI_MAX_LINES
  · rw [if_pos hb]
    exact ⟨rfl, rfl⟩
  · rw [if_neg hb]
    simp only
    have hc : cstrncmpEq (s.lines.getD idx uiLineZero).text t UI_TEXT_MAX = true := by
      rw [hts]
      simp [cstrncmpEq]
    rw [if_pos hc]
    by_cases hlt : idx < s.lines.length
    · rw [getD_set_self _ _ _ hlt]
      exact ⟨rfl, rfl⟩
    · rw [List.set_eq_of_length_le (by omega)]
      exact ⟨rfl, rfl⟩

theorem C7_witness :
    ((uiRun []).lines.getD 0 uiLineZero).text = [] ∧
    ((App_UI_SetLine 0 1 2 [] (uiRun [])).lines.getD 0 uiLineZero).dirty =
      ((uiRun []).lines.getD 0 uiLineZero).dirty := by
  refine ⟨by decide, ?_⟩
  exact (C7_pump_once_setline_idempotent.2.1 0 1 2 [] (uiRun []) (by decide)).1

/- ---- i2c.c / C4 ---- -/

/-- **C4**: when the 500 ms poll deadline fires and the first bus read fails,
exactly one bus-recovery procedure runs; if the retry succeeds the published
state is ok (`g_i2c_ok = 1`) with the retried value and the last-error symbol
cleared to "NONE", and if the retry also fails the published state is error
(`g_i2c_ok = 0`) with the last-error symbol derived (via `I2C_ErrStr`) from the
second failure's error code. -/
theorem C4_sensor_poll_recovery_and_publish
    (now : Nat) (a1 a2 : I2CAttempt) (s : SensorState)
    (hgate : i32lt0 (u32sub now s.nextPollMs) = false)
    (hfail1 : a1.st ≠ .OK) :
    (a2.st = .OK →
      (App_I2C_Service now a1 a2 s).1.ok = 1 ∧
      (App_I2C_Service now a1 a2 s).1.temp = toInt16 (a2.b0 % 256 + 256 * (a2.b1 % 256)) ∧
      (App_I2C_Service now a1 a2 s).1.lastErr = "NONE" ∧
      (App_I2C_Service now a1 a2 s).2 = 1) ∧
    (a2.st ≠ .OK →
      (App_I2C_Service now a1 a2 s).1.ok = 0 ∧
      (App_I2C_Service now a1 a2 s).1.lastErr = I2C_ErrStr a2.err ∧
      (App_I2C_Service now a1 a2 s).2 = 1) := by
  unfold App_I2C_Service
  rw [if_neg (by simp [hgate])]
  unfold I2C_ReadTemp_Fixed I2C_ReadTempFromESP32
  rw [if_pos hfail1]
  simp only
  constructor
  · intro hok2
    rw [if_neg (by simp [hfail1] : ¬(a1.st = HAL_Status.OK)),
        if_neg (by simp [hok2] : ¬(a2.st ≠ HAL_Status.OK))]
    simp
  · intro hfail2
    rw [if_neg (by simp [hfail1] : ¬(a1.st = HAL_Status.OK)), if_pos hfail2]
    simp only
    rw [if_neg (by simp [hfail2] : ¬(a2.st = HAL_Status.OK)),
        if_neg (by simp [hfail2] : ¬(a2.st = HAL_Status.OK))]
    simp

theorem C4_witness :
    i32lt0 (u32sub 1000 (0 : Nat)) = false ∧
    (I2CAttempt.mk .ERROR 0 0 4).st ≠ HAL_Status.OK ∧
    (I2CAttempt.mk .OK 25 0 0).st = HAL_Status.OK ∧
    (App_I2C_Service 1000 (I2CAttempt.mk .ERROR 0 0 4) (I2CAttempt.mk .OK 25 0 0)
      (SensorState.mk 0 0 "NONE" 0)).1.ok = 1 := by
  refine ⟨by decide, by decide, by decide, ?_⟩
  exact ((C4_sensor_poll_recovery_and_publish 1000 (I2CAttempt.mk .ERROR 0 0 4)
    (I2CAttempt.mk .OK 25 0 0) (SensorState.mk 0 0 "NONE" 0)
    (by decide) (by decide)).1 (by decide)).1

/- ---- main.c / C9 ---- -/

/-- **C9**: in each main-loop iteration the core-halt (`__WFI`) step comes only
after all eight service ticks have run (the first eight trace entries are
exactly the services, in source order); the halt is executed iff, after the
services ran, the console output queue is empty and the render engine is idle;
and whenever the halt occurs it is the final step of the iteration. -/
theorem C9_idle_wait_last_and_guarded {σ : Type} (E : LoopEnv σ) (now : Nat) (s : σ) :
    ((mainLoopIter E now s).2.take 8 =
      [.net, .usb, .can, .i2c, .tftTask, .tftSvc, .cli, .tick]) ∧
    (LoopStep.wfi ∈ (mainLoopIter E now s).2 ↔
      (E.usbLogEmpty (runServices E now s) = true ∧
        E.tftBusy (runServices E now s) = false)) ∧
    ((mainLoopIter E now s).2.getLast? = some LoopStep.wfi ↔
      LoopStep.wfi ∈ (mainLoopIter E now s).2) := by
  unfold mainLoopIter
  simp only
  by_cases hc : (E.usbLogEmpty (runServices E now s) &&
      !(E.tftBusy (runServices E now s))) = true
  · rw [if_pos hc]
    simp only [Bool.and_eq_true, Bool.not_eq_true'] at hc
    refine ⟨rfl, ?_, ?_⟩
    · simp [hc]
    · simp
  · rw [if_neg hc]
    simp only [Bool.and_eq_true, Bool.not_eq_true'] at hc
    refine ⟨by simp, ?_, ?_⟩
    · simp only [List.append_nil]
      constructor
      · intro hmem
        simp at hmem
      · intro hcond
        exact absurd hcond (by tauto)
    · simp only [List.append_nil]
      constructor
      · intro hlast
        simp [List.getLast?] at hlast
      · intro hmem
        simp at hmem

/- ---- app_net.c : single-flight send (C5, C10) ---- -/

theorem serializeTelemetry_length_pos (t : AppTelemetry) :
    1 ≤ (serializeTelemetry t).length := by
  simp [serializeTelemetry, keyTs]

theorem sendTCP_success_state (t : AppTelemetry) (w o : Bool) (s : NetState)
    (h : (APP_NET_SendTCP (some t) w o s).1 = true) :
    APP_NET_TcpIsConnected s = true ∧ s.txlen = 0 ∧
    (APP_NET_SendTCP (some t) w o s).2 =
      { s with txbuf := (serializeTelemetry t).take 255,
               txlen := min (serializeTelemetry t).length 255 } := by
  simp only [APP_NET_SendTCP] at h ⊢
  by_cases h1 : APP_NET_TcpIsConnected s = false
  · rw [if_pos h1] at h
    simp at h
  · rw [if_neg h1] at h ⊢
    by_cases h2 : s.txlen ≠ 0
    · rw [if_pos h2] at h
      simp at h
    · rw [if_neg h2] at h ⊢
      rw [if_neg (by have := serializeTelemetry_length_pos t; omega :
            ¬(serializeTelemetry t).length = 0)] at h ⊢
      by_cases h3 : w = false
      · rw [if_pos h3] at h
        simp at h
      · rw [if_neg h3] at h ⊢
        by_cases h4 : o = false
        · rw [if_pos h4] at h
          simp at h
        · rw [if_neg h4] at h ⊢
          refine ⟨by simp at h1; simp [h1], by omega, rfl⟩

/-- **C5**: `APP_NET_SendTCP` returns false whenever the pending-length guard
is nonzero or the connection is not Up, and such a rejected call leaves the
whole client state (including the pending message buffer) unchanged; after a
successful send, a second send issued before the send-acknowledged callback
returns false and changes nothing. -/
theorem C5_sendtcp_single_flight (t : AppTelemetry) (t2 : Option AppTelemetry)
    (w o w2 o2 : Bool) (s : NetState) :
    (s.txlen ≠ 0 ∨ APP_NET_TcpIsConnected s = false →
      APP_NET_SendTCP (some t) w o s = (false, s)) ∧
    ((APP_NET_SendTCP (some t) w o s).1 = true →
      APP_NET_SendTCP t2 w2 o2 (APP_NET_SendTCP (some t) w o s).2 =
        (false, (APP_NET_SendTCP (some t) w o s).2)) := by
  constructor
  · intro hrej
    simp only [APP_NET_SendTCP]
    by_cases h1 : APP_NET_TcpIsConnected s = false
    · rw [if_pos h1]
    · rw [if_neg h1]
      have h2 : s.txlen ≠ 0 := by tauto
      rw [if_pos h2]
  · intro hsucc
    obtain ⟨hconn, _htx, hstate⟩ := sendTCP_success_state t w o s hsucc
    generalize hX : (APP_NET_SendTCP (some t) w o s).2 = X at hstate ⊢
    have hXst : X.st = s.st := by rw [hstate]
    have hXpcb : X.pcb = s.pcb := by rw [hstate]
    have hXtx : X.txlen = min (serializeTelemetry t).length 255 := by rw [hstate]
    cases t2 with
    | none => rfl
    | some u =>
      simp only [APP_NET_SendTCP]
      rw [if_neg (by
        simp only [APP_NET_TcpIsConnected, hXst, hXpcb]
        simp only [APP_NET_TcpIsConnected] at hconn
        simp [hconn])]
      rw [if_pos (by
        rw [hXtx]
        have := serializeTelemetry_length_pos t
        omega)]

theorem C5_witness :
    ((NetState.mk .UP true 5 [] 0).txlen ≠ 0 ∨
      APP_NET_TcpIsConnected (NetState.mk .UP true 5 [] 0) = false) ∧
    APP_NET_SendTCP (some (AppTelemetry.mk 1 2 [] [])) true true
        (NetState.mk .UP true 5 [] 0) =
      (false, NetState.mk .UP true 5 [] 0) := by
  refine ⟨Or.inl (by decide), ?_⟩
  exact (C5_sendtcp_single_flight (AppTelemetry.mk 1 2 [] []) none true true true true
    (NetState.mk .UP true 5 [] 0)).1 (Or.inl (by decide))

/-- **C10** counterexample: a send issued while a message is already pending
(guard = 5) returns false with the guard still nonzero on return — the
claimed "whenever `APP_NET_SendTCP` returns false the guard is zero on return"
is wrong for the guard-rejection path (and must be wrong: the guard is exactly
what keeps the in-flight message's slot occupied until the ack). -/
theorem C10_counterexample :
    (APP_NET_SendTCP (some (AppTelemetry.mk 1 2 [] [])) true true
        (NetState.mk .UP true 5 [] 0)).1 = false ∧
    (APP_NET_SendTCP (some (AppTelemetry.mk 1 2 [] [])) true true
        (NetState.mk .UP true 5 [] 0)).2.txlen = 5 := by
  decide

/-- **C10** (amended): if the guard was zero at entry — i.e. the call was a
fresh send attempt, not a rejection shielding an in-flight message — then
whenever `APP_NET_SendTCP` returns false (NULL argument, not connected, or the
write/output step failing after the guard was provisionally set) the guard is
zero again on return; the guard is nonzero after exactly the successful calls,
i.e. while a fully submitted message awaits the send-acknowledged callback
`on_tcp_sent`, which clears it. -/
theorem C10_failed_send_frees_slot (t : Option AppTelemetry) (w o : Bool)
    (s : NetState) :
    (s.txlen = 0 → (APP_NET_SendTCP t w o s).1 = false →
      (APP_NET_SendTCP t w o s).2.txlen = 0) ∧
    ((APP_NET_SendTCP t w o s).1 = true → (APP_NET_SendTCP t w o s).2.txlen ≠ 0) ∧
    (on_tcp_sent (APP_NET_SendTCP t w o s).2).txlen = 0 := by
  refine ⟨?_, ?_, rfl⟩
  · intro htx0 hfalse
    cases t with
    | none => exact htx0
    | some u =>
      simp only [APP_NET_SendTCP] at hfalse ⊢
      by_cases h1 : APP_NET_TcpIsConnected s = false
      · rw [if_pos h1]
        exact htx0
      · rw [if_neg h1] at hfalse ⊢
        rw [if_neg (by omega : ¬s.txlen ≠ 0)] at hfalse ⊢
        by_cases h3 : (serializeTelemetry u).length = 0
        · rw [if_pos h3] at hfalse ⊢
          exact htx0
        · rw [if_neg h3] at hfalse ⊢
          by_cases h4 : w = false
          · rw [if_pos h4]
          · rw [if_neg h4] at hfalse ⊢
            by_cases h5 : o = false
            · rw [if_pos h5]
            · rw [if_neg h5] at hfalse
              simp at hfalse
  · intro htrue
    cases t with
    | none => simp [APP_NET_SendTCP] at htrue
    | some u =>
      obtain ⟨_, _, hstate⟩ := sendTCP_success_state u w o s htrue
      generalize hX : (APP_NET_SendTCP (some u) w o s).2 = X at hstate ⊢
      have hXtx : X.txlen = min (serializeTelemetry u).length 255 := by rw [hstate]
      rw [hXtx]
      have := serializeTelemetry_length_pos u
      omega

/- ---- app_net.c : reconnect backoff (C6) ---- -/

theorem u32sub_of_lt (a b : Nat) (ha : a < U32) (hb : b < U32) (hba : b ≤ a) :
    u32sub a b = a - b := by
  unfold u32sub U32 at *
  omega

theorem u32sub_of_gt (a b : Nat) (ha : a < U32) (hb : b < U32) (hba : a < b) :
    u32sub a b = U32 - (b - a) := by
  unfold u32sub U32 at *
  omega

theorem chain2000_weaken_head (l : List Nat) (x y : Nat)
    (h : List.Chain' (fun u v => u + 2000 ≤ v) (x :: l)) (hyx : y ≤ x) :
    List.Chain' (fun u v => u + 2000 ≤ v) (y :: l) := by
  cases l with
  | nil => simp
  | cons z zs =>
    rw [List.chain'_cons] at h ⊢
    exact ⟨by omega, h.2⟩

theorem netRun_gate_closed (now : Nat) (a : Nat) (ao co : Bool) (s : NetState)
    (hnext : s.nextReconnectMs = a + 2000) (ha : a < 2147483648)
    (hnow1 : a ≤ now) (hnow2 : now < a + 2000) (hnow3 : now < 2147483648)
    (hconn : APP_NET_TcpIsConnected s = false) :
    pollReconnect now ao co s = (s, false) := by
  unfold pollReconnect
  rw [if_neg (by simp [hconn])]
  rw [if_neg ?gate]
  case gate =>
    push_neg
    constructor
    · omega
    · rw [hnext, u32sub_of_gt now (a + 2000)
        (by unfold U32; omega) (by unfold U32; omega) (by omega)]
      simp only [i32lt0, U32]
      simp only [ne_eq, Bool.not_eq_false, decide_eq_true_iff]
      omega

theorem netRun_gate_open (now : Nat) (ao co : Bool) (s : NetState)
    (hopen : s.nextReconnectMs = 0 ∨
      (s.nextReconnectMs ≤ now ∧ now < 2147483648))
    (hconn : APP_NET_TcpIsConnected s = false) :
    pollReconnect now ao co s =
      ({ (tcp_start_connect now ao co s).1 with nextReconnectMs := (now + 2000) % U32 },
        (tcp_start_connect now ao co s).2) := by
  unfold pollReconnect
  rw [if_neg (by simp [hconn])]
  rcases hopen with h0 | ⟨hle, hnow⟩
  · rw [if_pos (Or.inl h0)]
  · rw [if_pos (Or.inr ?cond)]
    case cond =>
      rw [u32sub_of_lt now s.nextReconnectMs (by unfold U32; omega) (by unfold U32; omega) hle]
      simp only [i32lt0, U32]
      simp only [decide_eq_false_iff_not]
      omega

theorem netRun_aux (l : List PollIn) :
    ∀ (a : Nat) (s : NetState),
      a < 2147483648 →
      s.nextReconnectMs = a + 2000 →
      (∀ i ∈ l, i.now < 2147483648) →
      (∀ i ∈ l, a ≤ i.now) →
      List.Pairwise (fun x y => x ≤ y) (l.map PollIn.now) →
      List.Chain' (fun x y => x + 2000 ≤ y) (a :: (netRun l s).2) := by
  induction l with
  | nil =>
    intro a s _ _ _ _ _
    simp [netRun]
  | cons i rest ih =>
    intro a s ha hnext hbound hge hsorted
    have hb : i.now < 2147483648 := hbound i (List.mem_cons_self i rest)
    have hg : a ≤ i.now := hge i (List.mem_cons_self i rest)
    rw [List.map_cons, List.pairwise_cons] at hsorted
    obtain ⟨hheadle, hsorted2⟩ := hsorted
    have hrest_bound : ∀ j ∈ rest, j.now < 2147483648 :=
      fun j hj => hbound j (List.mem_cons_of_mem i hj)
    have hrest_le : ∀ j ∈ rest, i.now ≤ j.now :=
      fun j hj => hheadle j.now (List.mem_map_of_mem PollIn.now hj)
    simp only [netRun]
    have hn0 : ({ s with st := i.extSt, pcb := i.extPcb } : NetState).nextReconnectMs
        = a + 2000 := hnext
    by_cases hconn : APP_NET_TcpIsConnected { s with st := i.extSt, pcb := i.extPcb } = true
    · have hstep : pollReconnect i.now i.alloc_ok i.conn_ok
          { s with st := i.extSt, pcb := i.extPcb } =
          ({ s with st := i.extSt, pcb := i.extPcb }, false) := by
        unfold pollReconnect
        rw [if_pos hconn]
      rw [hstep]
      simp only [Bool.false_eq_true, if_false, List.nil_append]
      exact ih a _ ha hn0 hrest_bound
        (fun j hj => le_trans hg (hrest_le j hj)) hsorted2
    · have hconnF : APP_NET_TcpIsConnected { s with st := i.extSt, pcb := i.extPcb } = false :=
        by simp only [Bool.not_eq_true] at hconn; exact hconn
      by_cases hlt : i.now < a + 2000
      · rw [netRun_gate_closed i.now a i.alloc_ok i.conn_ok _ hn0 ha hg hlt hb hconnF]
        simp only [Bool.false_eq_true, if_false, List.nil_append]
        exact ih a _ ha hn0 hrest_bound
          (fun j hj => le_trans hg (hrest_le j hj)) hsorted2
      · rw [netRun_gate_open i.now i.alloc_ok i.conn_ok _ (Or.inr ⟨by omega, hb⟩) hconnF]
        have hn1 : ({ (tcp_start_connect i.now i.alloc_ok i.conn_ok
            { s with st := i.extSt, pcb := i.extPcb }).1 with
            nextReconnectMs := (i.now + 2000) % U32 } : NetState).nextReconnectMs =
            i.now + 2000 := by
          show (i.now + 2000) % U32 = i.now + 2000
          exact Nat.mod_eq_of_lt (by unfold U32; omega)
        have hchain := ih i.now _ hb hn1 hrest_bound hrest_le hsorted2
        cases hatt : (tcp_start_connect i.now i.alloc_ok i.conn_ok
            { s with st := i.extSt, pcb := i.extPcb }).2 with
        | false =>
          rw [if_neg (by simp : ¬(false = true)), List.nil_append]
          exact chain2000_weaken_head _ i.now a hchain hg
        | true =>
          rw [if_pos rfl, List.singleton_append]
          rw [List.chain'_cons]
          exact ⟨by omega, hchain⟩

theorem netRun_start (l : List PollIn) :
    ∀ s : NetState, s.nextReconnectMs = 0 →
      (∀ i ∈ l, i.now < 2147483648) →
      List.Pairwise (fun x y => x ≤ y) (l.map PollIn.now) →
      List.Chain' (fun x y => x + 2000 ≤ y) (netRun l s).2 := by
  induction l with
  | nil =>
    intro s _ _ _
    simp [netRun]
  | cons i rest ih =>
    intro s h0 hbound hsorted
    have hb : i.now < 2147483648 := hbound i (List.mem_cons_self i rest)
    rw [List.map_cons, List.pairwise_cons] at hsorted
    obtain ⟨hheadle, hsorted2⟩ := hsorted
    have hrest_bound : ∀ j ∈ rest, j.now < 2147483648 :=
      fun j hj => hbound j (List.mem_cons_of_mem i hj)
    have hrest_le : ∀ j ∈ rest, i.now ≤ j.now :=
      fun j hj => hheadle j.now (List.mem_map_of_mem PollIn.now hj)
    simp only [netRun]
    have hn0 : ({ s with st := i.extSt, pcb := i.extPcb } : NetState).nextReconnectMs = 0 := h0
    by_cases hconn : APP_NET_TcpIsConnected { s with st := i.extSt, pcb := i.extPcb } = true
    · have hstep : pollReconnect i.now i.alloc_ok i.conn_ok
          { s with st := i.extSt, pcb := i.extPcb } =
          ({ s with st := i.extSt, pcb := i.extPcb }, false) := by
        unfold pollReconnect
        rw [if_pos hconn]
      rw [hstep]
      simp only [Bool.false_eq_true, if_false, List.nil_append]
      exact ih _ hn0 hrest_bound hsorted2
    · have hconnF : APP_NET_TcpIsConnected { s with st := i.extSt, pcb := i.extPcb } = false :=
        by simp only [Bool.not_eq_true] at hconn; exact hconn
      rw [netRun_gate_open i.now i.alloc_ok i.conn_ok _ (Or.inl hn0) hconnF]
      have hn1 : ({ (tcp_start_connect i.now i.alloc_ok i.conn_ok
          { s with st := i.extSt, pcb := i.extPcb }).1 with
          nextReconnectMs := (i.now + 2000) % U32 } : NetState).nextReconnectMs =
          i.now + 2000 := by
        show (i.now + 2000) % U32 = i.now + 2000
        exact Nat.mod_eq_of_lt (by unfold U32; omega)
      have hchain := netRun_aux rest i.now _ hb hn1 hrest_bound hrest_le hsorted2
      cases hatt : (tcp_start_connect i.now i.alloc_ok i.conn_ok
          { s with st := i.extSt, pcb := i.extPcb }).2 with
      | false =>
        rw [if_neg (by simp : ¬(false = true)), List.nil_append]
        exact hchain.tail
      | true =>
        rw [if_pos rfl, List.singleton_append]
        exact hchain

/-- **C6** counterexample: with the full 32-bit clock the "never less than
2000 ms apart" property fails at exactly one pathological point — an attempt
issued 2000 ms before the `uint32` clock wraps stores deadline
`(2^32 - 2000) + 2000 = 0`, which `APP_NET_Poll` treats as the "no deadline
yet" sentinel, so the very next poll (1 ms later, clock still monotonic)
immediately starts another connection attempt. -/
theorem C6_counterexample :
    (netRun [PollIn.mk 4294965296 .DOWN false true true,
             PollIn.mk 4294965297 .DOWN false true true]
        (NetState.mk .DOWN false 0 [] 0)).2 = [4294965296, 4294965297] ∧
    List.Pairwise (fun x y => x ≤ y)
      (List.map PollIn.now [PollIn.mk 4294965296 .DOWN false true true,
                            PollIn.mk 4294965297 .DOWN false true true]) ∧
    ¬ List.Chain' (fun x y => x + 2000 ≤ y)
        (netRun [PollIn.mk 4294965296 .DOWN false true true,
                 PollIn.mk 4294965297 .DOWN false true true]
          (NetState.mk .DOWN false 0 [] 0)).2 := by
  refine ⟨by decide, by decide, ?_⟩
  intro h
  rw [show (netRun [PollIn.mk 4294965296 .DOWN false true true,
             PollIn.mk 4294965297 .DOWN false true true]
        (NetState.mk .DOWN false 0 [] 0)).2 = [4294965296, 4294965297] from by decide] at h
  rw [List.chain'_cons] at h
  omega

/-- **C6** (amended): as long as every clock value stays below `2^31` (so a
stored deadline can never collide with the `0` "no deadline" sentinel at the
32-bit wrap), any monotone sequence of `APP_NET_Poll` steps — with the
connection fields evolving arbitrarily between polls — issues TCP connection
attempts pairwise at least 2000 ms apart: every attempt re-arms the reconnect
deadline 2000 ms into the future and the signed-delta gate blocks earlier
retries. -/
theorem C6_reconnect_backoff_amended (l : List PollIn) (s : NetState)
    (hinit : s.nextReconnectMs = 0)
    (hbound : ∀ i ∈ l, i.now < 2147483648)
    (hsorted : List.Pairwise (fun x y => x ≤ y) (l.map PollIn.now)) :
    List.Pairwise (fun x y => x + 2000 ≤ y) (netRun l s).2 := by
  have hchain := netRun_start l s hinit hbound hsorted
  have : IsTrans Nat (fun x y => x + 2000 ≤ y) := ⟨fun x y z hxy hyz => by omega⟩
  exact List.chain'_iff_pairwise.mp hchain

theorem C6_witness :
    (NetState.mk .DOWN false 0 [] 0).nextReconnectMs = 0 ∧
    (∀ i ∈ [PollIn.mk 0 .DOWN false true true,
            PollIn.mk 100 .CONNECTING true true true,
            PollIn.mk 2500 .DOWN false true true], i.now < 2147483648) ∧
    List.Pairwise (fun x y => x ≤ y)
      (List.map PollIn.now [PollIn.mk 0 .DOWN false true true,
                            PollIn.mk 100 .CONNECTING true true true,
                            PollIn.mk 2500 .DOWN false true true]) ∧
    List.Pairwise (fun x y => x + 2000 ≤ y)
      (netRun [PollIn.mk 0 .DOWN false true true,
               PollIn.mk 100 .CONNECTING true true true,
               PollIn.mk 2500 .DOWN false true true]
        (NetState.mk .DOWN false 0 [] 0)).2 := by
  refine ⟨rfl, by decide, by decide, ?_⟩
  exact C6_reconnect_backoff_amended _ _ rfl (by decide) (by decide)

/- ---- app_net.c : telemetry codec round-trip (C8) ---- -/

theorem digitChar_spec : ∀ d < 10, (digitChar d).isDigit = true ∧
    (digitChar d).toNat = 48 + d ∧ ¬(digitChar d = '-') := by
  decide

theorem digitsLE_eq (fuel : Nat) : ∀ n : Nat, n ≤ fuel → digitsLE fuel n = Nat.digits 10 n := by
  induction fuel with
  | zero =>
    intro n h
    have hn : n = 0 := by omega
    subst hn
    simp [digitsLE]
  | succ m ih =>
    intro n h
    by_cases hn : n = 0
    · subst hn
      simp [digitsLE]
    · show (if n = 0 then [] else n % 10 :: digitsLE m (n / 10)) = _
      rw [if_neg hn]
      rw [ih (n / 10) (by
        have : n / 10 < n := Nat.div_lt_self (by omega) (by norm_num)
        omega)]
      rw [Nat.digits_def' (by norm_num : (1 : ℕ) < 10) (by omega : 0 < n)]

theorem decDigits_foldl (n : Nat) :
    (decDigits n).foldl (fun a d => a * 10 + d) 0 = n := by
  unfold decDigits
  by_cases h : n = 0
  · simp [h]
  · rw [if_neg h, digitsLE_eq n n le_rfl, List.foldl_reverse]
    have hfold : ∀ l : List ℕ, l.foldr (fun x y => y * 10 + x) 0 = Nat.ofDigits 10 l := by
      intro l
      induction l with
      | nil => simp [Nat.ofDigits]
      | cons d t iht =>
        simp only [List.foldr_cons, Nat.ofDigits_cons, iht]
        ring
    rw [hfold]
    exact_mod_cast Nat.ofDigits_digits 10 n

theorem decDigits_lt (n : Nat) : ∀ d ∈ decDigits n, d < 10 := by
  unfold decDigits
  by_cases h : n = 0
  · simp [h]
  · rw [if_neg h, digitsLE_eq n n le_rfl]
    intro d hd
    rw [List.mem_reverse] at hd
    exact Nat.digits_lt_base (by norm_num) hd

theorem decDigits_ne_nil (n : Nat) : decDigits n ≠ [] := by
  unfold decDigits
  by_cases h : n = 0
  · simp [h]
  · rw [if_neg h, digitsLE_eq n n le_rfl]
    simp [Nat.digits_ne_nil_iff_ne_zero, h]

theorem decDigits_length_le (n k : Nat) (hlt : n < 10 ^ k) (hk : 1 ≤ k) :
    (decDigits n).length ≤ k := by
  unfold decDigits
  by_cases h0 : n = 0
  · simp [h0]
    omega
  · rw [if_neg h0, digitsLE_eq n n le_rfl, List.length_reverse]
    rw [Nat.digits_len 10 n (by norm_num) h0]
    have := Nat.log_lt_of_lt_pow h0 hlt
    omega

theorem parseNatAux_append_digits (ds : List Nat) :
    ∀ (acc : Nat) (rest : List Char),
      (∀ d ∈ ds, d < 10) →
      (∀ c, rest.head? = some c → c.isDigit = false) →
      parseNatAux (ds.map digitChar ++ rest) acc =
        (ds.foldl (fun a d => a * 10 + d) acc, rest) := by
  induction ds with
  | nil =>
    intro acc rest _ hrest
    simp only [List.map_nil, List.nil_append, List.foldl_nil]
    cases rest with
    | nil => rfl
    | cons c cs =>
      have hc := hrest c rfl
      simp [parseNatAux, hc]
  | cons d ds ih =>
    intro acc rest hds hrest
    have hd : d < 10 := hds d (List.mem_cons_self d ds)
    obtain ⟨hdig, htn, _⟩ := digitChar_spec d hd
    simp only [List.map_cons, List.cons_append, parseNatAux]
    rw [if_pos hdig, htn]
    rw [show 48 + d - 48 = d from by omega]
    simp only [List.append_eq]
    rw [ih (acc * 10 + d) rest (fun x hx => hds x (List.mem_cons_of_mem d hx)) hrest]
    rfl

theorem parseNatStrict_append (n : Nat) (rest : List Char)
    (hrest : ∀ c, rest.head? = some c → c.isDigit = false) :
    parseNatStrict (natToDec n ++ rest) = some (n, rest) := by
  obtain ⟨d0, ds, hds⟩ := List.exists_cons_of_ne_nil (decDigits_ne_nil n)
  have hmap : natToDec n = digitChar d0 :: ds.map digitChar := by
    rw [natToDec, hds, List.map_cons]
  have hd0 : d0 < 10 := decDigits_lt n d0 (by rw [hds]; exact List.mem_cons_self d0 ds)
  obtain ⟨hdig, _, _⟩ := digitChar_spec d0 hd0
  rw [hmap, List.cons_append]
  show (if (digitChar d0).isDigit then
      some (parseNatAux (digitChar d0 :: (ds.map digitChar ++ rest)) 0) else none) = _
  rw [if_pos hdig]
  rw [show digitChar d0 :: (ds.map digitChar ++ rest) =
        (d0 :: ds).map digitChar ++ rest from by simp]
  rw [parseNatAux_append_digits (d0 :: ds) 0 rest (by rw [← hds]; exact decDigits_lt n) hrest]
  rw [← hds, decDigits_foldl]

theorem parseIntStrict_append (i : Int) (rest : List Char)
    (hrest : ∀ c, rest.head? = some c → c.isDigit = false) :
    parseIntStrict (intToDec i ++ rest) = some (i, rest) := by
  unfold intToDec
  by_cases hneg : i < 0
  · rw [if_pos hneg, List.cons_append]
    simp only [parseIntStrict]
    rw [if_pos trivial, parseNatStrict_append i.natAbs rest hrest]
    show some (-((i.natAbs : Int)), rest) = some (i, rest)
    rw [show -((i.natAbs : Int)) = i from by omega]
  · rw [if_neg hneg]
    obtain ⟨d0, ds, hds⟩ := List.exists_cons_of_ne_nil (decDigits_ne_nil i.toNat)
    have hmap : natToDec i.toNat = digitChar d0 :: ds.map digitChar := by
      rw [natToDec, hds, List.map_cons]
    have hd0 : d0 < 10 := decDigits_lt i.toNat d0 (by rw [hds]; exact List.mem_cons_self d0 ds)
    obtain ⟨_, _, hnd⟩ := digitChar_spec d0 hd0
    rw [hmap, List.cons_append]
    simp only [parseIntStrict]
    rw [if_neg hnd, ← List.cons_append, ← hmap, parseNatStrict_append i.toNat rest hrest]
    show some (((i.toNat : Int)), rest) = some (i, rest)
    rw [show ((i.toNat : Int)) = i from by omega]

theorem expectLit_append (p rest : List Char) : expectLit p (p ++ rest) = some rest := by
  induction p with
  | nil => rfl
  | cons c cs ih => simp [expectLit, ih]

theorem decode_serialized (t : AppTelemetry) :
    decodeTelemetry (serializeTelemetry t) = some (t.now_ms, t.i2c_temp_c) := by
  have hassoc : serializeTelemetry t =
      keyTs ++ (natToDec t.now_ms ++ (keyI2c ++ (intToDec t.i2c_temp_c ++
        (keyCan101 ++ (t.can_0x101 ++ (keyCan120 ++ (t.can_0x120 ++ keyEnd))))))) := by
    simp [serializeTelemetry, List.append_assoc]
  have hhead1 : ∀ c, (keyI2c ++ (intToDec t.i2c_temp_c ++
      (keyCan101 ++ (t.can_0x101 ++ (keyCan120 ++ (t.can_0x120 ++ keyEnd)))))).head? =
      some c → c.isDigit = false := by
    intro c hc
    rw [show keyI2c ++ (intToDec t.i2c_temp_c ++
      (keyCan101 ++ (t.can_0x101 ++ (keyCan120 ++ (t.can_0x120 ++ keyEnd))))) =
      ',' :: (keyI2c.tail ++ (intToDec t.i2c_temp_c ++
      (keyCan101 ++ (t.can_0x101 ++ (keyCan120 ++ (t.can_0x120 ++ keyEnd)))))) from rfl] at hc
    rw [List.head?_cons] at hc
    cases hc
    decide
  have hhead2 : ∀ c, (keyCan101 ++ (t.can_0x101 ++ (keyCan120 ++
      (t.can_0x120 ++ keyEnd)))).head? = some c → c.isDigit = false := by
    intro c hc
    rw [show keyCan101 ++ (t.can_0x101 ++ (keyCan120 ++ (t.can_0x120 ++ keyEnd))) =
      ',' :: (keyCan101.tail ++ (t.can_0x101 ++ (keyCan120 ++ (t.can_0x120 ++ keyEnd))))
      from rfl] at hc
    rw [List.head?_cons] at hc
    cases hc
    decide
  rw [hassoc]
  unfold decodeTelemetry
  rw [expectLit_append keyTs]
  rw [Option.some_bind]
  rw [parseNatStrict_append t.now_ms _ hhead1]
  rw [Option.some_bind]
  rw [expectLit_append keyI2c]
  rw [Option.some_bind]
  rw [parseIntStrict_append t.i2c_temp_c _ hhead2]
  rfl

theorem serializeTelemetry_length_le (t : AppTelemetry)
    (hts : t.now_ms < 4294967296)
    (hlo : -2147483648 ≤ t.i2c_temp_c) (hhi : t.i2c_temp_c < 2147483648)
    (h101 : t.can_0x101.length ≤ 63) (h120 : t.can_0x120.length ≤ 63) :
    (serializeTelemetry t).length ≤ 255 := by
  have h10 : (10 : ℕ) ^ 10 = 10000000000 := by norm_num
  have hts10 : (natToDec t.now_ms).length ≤ 10 := by
    rw [natToDec, List.length_map]
    exact decDigits_length_le _ 10 (by omega) (by norm_num)
  have hint11 : (intToDec t.i2c_temp_c).length ≤ 11 := by
    unfold intToDec
    by_cases h : t.i2c_temp_c < 0
    · rw [if_pos h]
      have hab : (natToDec t.i2c_temp_c.natAbs).length ≤ 10 := by
        rw [natToDec, List.length_map]
        refine decDigits_length_le _ 10 ?_ (by norm_num)
        have : t.i2c_temp_c.natAbs ≤ 2147483648 := by omega
        omega
      rw [List.length_cons]
      omega
    · rw [if_neg h]
      rw [natToDec, List.length_map]
      refine le_trans (decDigits_length_le _ 10 ?_ (by norm_num)) (by norm_num)
      have : t.i2c_temp_c.toNat < 2147483648 := by omega
      omega
  simp only [serializeTelemetry, List.length_append, keyTs, keyI2c, keyCan101,
    keyCan120, keyEnd, List.length_cons, List.length_nil]
  omega

/-- **C8**: for every telemetry sample within the C types' ranges (`uint32_t`
timestamp, `int32_t` reading, `char[64]` snapshots), decoding the
newline-terminated wire record produced by the shared serializer format of
`APP_NET_SendUDP`/`APP_NET_SendTCP` (including snprintf's 256-byte buffer
clamp) recovers the original timestamp and sensor reading exactly. -/
theorem C8_telemetry_roundtrip (t : AppTelemetry)
    (hts : t.now_ms < 4294967296)
    (hlo : -2147483648 ≤ t.i2c_temp_c) (hhi : t.i2c_temp_c < 2147483648)
    (h101 : t.can_0x101.length ≤ 63) (h120 : t.can_0x120.length ≤ 63) :
    decodeTelemetry (telemetryWire t) = some (t.now_ms, t.i2c_temp_c) ∧
    (telemetryWire t).getLast? = some '\n' := by
  have hlen := serializeTelemetry_length_le t hts hlo hhi h101 h120
  have hwire : telemetryWire t = serializeTelemetry t := by
    rw [telemetryWire, List.take_of_length_le hlen]
  rw [hwire]
  refine ⟨decode_serialized t, ?_⟩
  show (keyTs ++ natToDec t.now_ms ++ keyI2c ++ intToDec t.i2c_temp_c ++
      keyCan101 ++ t.can_0x101 ++ keyCan120 ++ t.can_0x120 ++ keyEnd).getLast? =
    some '\n'
  simp [keyEnd, List.getLast?_append]

theorem C8_witness :
    (AppTelemetry.mk 123 (-45) ['a'] []).now_ms < 4294967296 ∧
    -2147483648 ≤ (AppTelemetry.mk 123 (-45) ['a'] []).i2c_temp_c ∧
    (AppTelemetry.mk 123 (-45) ['a'] []).i2c_temp_c < 2147483648 ∧
    (AppTelemetry.mk 123 (-45) ['a'] []).can_0x101.length ≤ 63 ∧
    (AppTelemetry.mk 123 (-45) ['a'] []).can_0x120.length ≤ 63 ∧
    decodeTelemetry (telemetryWire (AppTelemetry.mk 123 (-45) ['a'] [])) =
      some (123, -45) := by
  refine ⟨by decide, by decide, by decide, by decide, by decide, ?_⟩
  exact (C8_telemetry_roundtrip (AppTelemetry.mk 123 (-45) ['a'] [])
    (by decide) (by decide) (by decide) (by decide) (by decide)).1

theorem C10_witness :
    (NetState.mk .UP true 0 [] 0).txlen = 0 ∧
    (APP_NET_SendTCP (some (AppTelemetry.mk 1 2 [] [])) false true
        (NetState.mk .UP true 0 [] 0)).1 = false ∧
    (APP_NET_SendTCP (some (AppTelemetry.mk 1 2 [] [])) false true
        (NetState.mk .UP true 0 [] 0)).2.txlen = 0 := by
  refine ⟨rfl, by decide, ?_⟩
  exact (C10_failed_send_frees_slot (some (AppTelemetry.mk 1 2 [] [])) false true
    (NetState.mk .UP true 0 [] 0)).1 rfl (by decide)
